import Mathlib

/-!
Shallow embedding of the `syncgroup` Go package (src/syncgroup.go) and proofs
of the specification claims about it.

The package runs independent tasks in goroutines, collects every error they
return (or every panic they raise, converted to an error), optionally bounds
concurrency with a buffered-channel semaphore, and surfaces all failures from a
single `Wait` call as an `errors.Join` aggregate.

Modelling conventions:
* Go `error` values produced by this program are the inductive `GoError`
  (`errors.New`, `fmt.Errorf` with one or two `%w` verbs); a nilable error is
  `Option GoError`; the `errors.Join` aggregate is `JoinError`.
* The group's mutable state is the record `SyncGroup`: the `sync.WaitGroup`
  counter, the buffered semaphore channel as capacity plus occupancy, the
  closed flags of the two channels, the one-shot `listeningStarted` flag, the
  collector's accumulated error list, and the spawned goroutines that are
  still waiting on the semaphore (`pending`) or running (`running`).
* A task is represented by its eventual behaviour `TaskOutcome`: return an
  `Option GoError`, or panic with a payload and a captured stack string.
* Caller-side code of `Go` / `TryGo` / `SetLimit` / `Wait` becomes a pure
  function on `SyncGroup`; a Go `panic` in caller code becomes `Except.error`
  (for `SetLimit`) or the `WaitResult.panicked` constructor (for `Wait`);
  blocking of `Wait` on a nonzero counter becomes `WaitResult.blocked`.
* Goroutine-side steps (the blocking semaphore acquisition inside a
  `Go`-spawned goroutine, and a task finishing: panic recovery in `done`, the
  error send received by the collector, slot release, counter decrement)
  become the step functions `admitFirstPending` and `doneOne`.
-/

/-- Go error values as built by this program: `errors.New msg` is `base msg`;
`fmt.Errorf("%w: %w\n%s", outer, inner, stack)` (two `%w` verbs, so both
operands are unwrap targets) is `wrap2 outer inner stack`;
`fmt.Errorf("%w: %v\n%s", outer, payload, stack)` (payload only rendered to
text) is `wrapv outer payload stack`. -/
inductive GoError where
  | base (msg : String) : GoError
  | wrap2 (outer inner : GoError) (stack : String) : GoError
  | wrapv (outer : GoError) (payload stack : String) : GoError
  deriving DecidableEq

/-- The `Error()` message of a `GoError`, following `errors.New` and the
`fmt.Errorf` format strings used in `done` (src/syncgroup.go:117,119). -/
def GoError.message : GoError → String
  | .base m => m
  | .wrap2 outer inner stack =>
      outer.message ++ ": " ++ inner.message ++ "\n" ++ stack
  | .wrapv outer payload stack =>
      outer.message ++ ": " ++ payload ++ "\n" ++ stack

/-- `ErrPanicRecovered = errors.New("recovered from panic")`,
src/syncgroup.go:22. -/
def ErrPanicRecovered : GoError := .base "recovered from panic"

/-- `errors.Is(err, target)` on the error trees this program builds: equality
with the target, else recursion into every `%w`-wrapped operand. -/
def errorsIs (err target : GoError) : Bool :=
  if err = target then true
  else
    match err with
    | .base _ => false
    | .wrap2 outer inner _ => errorsIs outer target || errorsIs inner target
    | .wrapv outer _ _ => errorsIs outer target

/-- A non-nil `errors.Join` result: the ordered non-empty list of joined
errors; supports `Unwrap() []error`. -/
structure JoinError where
  errs : List GoError
  deriving DecidableEq

/-- `errors.Is(j, target)` for a join aggregate `j` and an individual error
`target`: the aggregate itself never equals an individual error, so the check
recurses into each joined element. -/
def joinContains (j : JoinError) (target : GoError) : Bool :=
  j.errs.any (fun e => errorsIs e target)

/-- `errors.Join(errs...)`: drops nil operands and returns nil when none
remain, otherwise the aggregate of the survivors in order. -/
def errorsJoin (errs : List (Option GoError)) : Option JoinError :=
  let nonNil := errs.filterMap id
  if nonNil.isEmpty then none else some ⟨nonNil⟩

/-- The value a task panics with: either a value implementing `error` (the
`case error:` arm of `done`) or any other value, carried as its `%v`
rendering (the `default:` arm). -/
inductive PanicPayload where
  | err (val : GoError) : PanicPayload
  | other (text : String) : PanicPayload
  deriving DecidableEq

/-- How a submitted task eventually terminates: a normal return carrying a
nilable error, or a panic with a payload, at which point `debug.Stack()`
yields the string `stack`. -/
inductive TaskOutcome where
  | ret (res : Option GoError) : TaskOutcome
  | panicked (payload : PanicPayload) (stack : String) : TaskOutcome
  deriving DecidableEq

/-- The error `done` builds from a recovered panic (src/syncgroup.go:115-120):
the payload is wrapped under `ErrPanicRecovered` with `%w` when it is itself
an error, and rendered with `%v` otherwise; both arms append the stack. -/
def recoverToError (msg : PanicPayload) (stack : String) : GoError :=
  match msg with
  | .err val => .wrap2 ErrPanicRecovered val stack
  | .other val => .wrapv ErrPanicRecovered val stack

/-- The one optional error a task's goroutine sends to `errorChan`: a non-nil
returned error (src/syncgroup.go:79-81, 101-103), or the panic-derived error
built in `done` (src/syncgroup.go:122); nothing on a nil return. -/
def taskReport : TaskOutcome → Option GoError
  | .ret res => res
  | .panicked payload stack => some (recoverToError payload stack)

/-- The buffered channel `semaphore chan semaphoreToken`: its buffer size
(`make(chan semaphoreToken, limit)`) and how many tokens currently sit in the
buffer. A send completes only while `occupancy < capacity`; a receive removes
one token. -/
structure Semaphore where
  capacity : Nat
  occupancy : Nat
  deriving DecidableEq

/-- Receiving one token (`<-g.semaphore` in `done`, src/syncgroup.go:126). -/
def Semaphore.release (s : Semaphore) : Semaphore :=
  ⟨s.capacity, s.occupancy - 1⟩

/-- State of one `SyncGroup` (src/syncgroup.go:35-44) together with its
spawned goroutines and its collector:
`wgCounter` is the `sync.WaitGroup` counter; `semaphore` is `none` when the
field is nil (no limit); `errorChanClosed` / `finishedChanClosed` record
whether the two channels have been closed; `listeningStarted` is the atomic
flag set inside the `sync.Once` body of `startListening` (the `Once` fires
exactly when the flag is still false, so the flag doubles as the one-shot
state); `accumulated` is the collector's list in `listenToErrors`;
`pending` are `Go`-spawned goroutines still blocked on the semaphore send;
`running` are goroutines whose task is executing. -/
structure SyncGroup where
  wgCounter : Nat
  semaphore : Option Semaphore
  errorChanClosed : Bool
  finishedChanClosed : Bool
  listeningStarted : Bool
  accumulated : List GoError
  pending : List TaskOutcome
  running : List TaskOutcome
  deriving DecidableEq

/-- `New()` (src/syncgroup.go:49-60): nil semaphore, open channels, flag
unset, no goroutines, empty collector state. -/
def New : SyncGroup :=
  { wgCounter := 0
    semaphore := none
    errorChanClosed := false
    finishedChanClosed := false
    listeningStarted := false
    accumulated := []
    pending := []
    running := [] }

/-- Caller side of `Go` (src/syncgroup.go:65-83): `startListening` (sets the
one-shot flag, idempotently), `wg.Add(1)`, and spawning the goroutine, whose
first action — the blocking semaphore send — has not happened yet, so the new
goroutine is `pending`. `Go` then returns at once: it has no return value and
performs no semaphore operation on the caller's side. -/
def Go (g : SyncGroup) (t : TaskOutcome) : SyncGroup :=
  { g with
    listeningStarted := true
    wgCounter := g.wgCounter + 1
    pending := g.pending ++ [t] }

/-- The first action of a `Go`-spawned goroutine (src/syncgroup.go:73-76):
when a semaphore exists, the send `g.semaphore <- semaphoreToken{}` completes
only if the buffer has room, otherwise the goroutine stays blocked (`none`);
with no semaphore the goroutine proceeds directly to running its task. -/
def admitFirstPending (g : SyncGroup) : Option SyncGroup :=
  match g.pending with
  | [] => none
  | t :: rest =>
    match g.semaphore with
    | some s =>
      if s.occupancy < s.capacity then
        some { g with
          pending := rest
          running := g.running ++ [t]
          semaphore := some ⟨s.capacity, s.occupancy + 1⟩ }
      else none
    | none => some { g with pending := rest, running := g.running ++ [t] }

/-- Caller side of `TryGo` (src/syncgroup.go:85-107): with a semaphore, the
`select` with a `default` arm succeeds exactly when the buffer has room,
otherwise `TryGo` returns `false` having done nothing; on success (or with no
semaphore) it runs `startListening`, `wg.Add(1)` and spawns the goroutine,
which — having no semaphore send of its own — is immediately `running`. -/
def TryGo (g : SyncGroup) (t : TaskOutcome) : Bool × SyncGroup :=
  match g.semaphore with
  | some s =>
    if s.occupancy < s.capacity then
      (true,
        { g with
          semaphore := some ⟨s.capacity, s.occupancy + 1⟩
          listeningStarted := true
          wgCounter := g.wgCounter + 1
          running := g.running ++ [t] })
    else (false, g)
  | none =>
    (true,
      { g with
        listeningStarted := true
        wgCounter := g.wgCounter + 1
        running := g.running ++ [t] })

/-- `TryGo` applied to a list of tasks back to back, collecting the returned
booleans. -/
def tryGoAll (g : SyncGroup) (ts : List TaskOutcome) : List Bool × SyncGroup :=
  match ts with
  | [] => ([], g)
  | t :: rest =>
    let r := TryGo g t
    let rs := tryGoAll r.2 rest
    (r.1 :: rs.1, rs.2)

/-- The collector receiving one error: the `append` in `listenToErrors`
(src/syncgroup.go:146-148). -/
def collectorReceive (g : SyncGroup) (e : GoError) : SyncGroup :=
  { g with accumulated := g.accumulated ++ [e] }

/-- A running task terminating with outcome `t`: the tail of the goroutine
body plus `done` (src/syncgroup.go:78-81, 111-130). Its single optional error
report (`taskReport t`) is sent to `errorChan` and received by the collector;
then the semaphore slot, if any, is released, and `wg.Done()` decrements the
counter. -/
def doneOne (g : SyncGroup) (t : TaskOutcome) : SyncGroup :=
  let g1 :=
    match taskReport t with
    | some e => collectorReceive g e
    | none => g
  { g1 with
    semaphore := g1.semaphore.map Semaphore.release
    wgCounter := g1.wgCounter - 1 }

/-- Every running task terminates, in the order of the `running` list (the
theorems quantify over that list, so every completion order is covered). -/
def finishAllRunning (g : SyncGroup) : SyncGroup :=
  g.running.foldl doneOne { g with running := [] }

/-- `SetLimit` (src/syncgroup.go:175-187): panics — modelled as
`Except.error` with the panic message — when the one-shot flag is already
set; otherwise a non-positive limit clears the semaphore and a positive limit
installs a fresh buffered channel of that capacity. -/
def SetLimit (g : SyncGroup) (limit : Int) : Except String SyncGroup :=
  if g.listeningStarted then .error "cannot set limit after starting goroutines"
  else if limit ≤ 0 then .ok { g with semaphore := none }
  else .ok { g with semaphore := some ⟨limit.toNat, 0⟩ }

/-- Result of a `Wait` call: it can block forever on `wg.Wait()` (when the
counter is nonzero and stays so), panic, or return a nilable error together
with the state it leaves behind. -/
inductive WaitResult where
  | blocked : WaitResult
  | panicked (msg : String) : WaitResult
  | returned (res : Option JoinError) (g : SyncGroup) : WaitResult
  deriving DecidableEq

/-- `Wait` (src/syncgroup.go:158-173): the short circuit when the one-shot
flag was never set; then `wg.Wait()` (blocked while the counter is nonzero);
then `close(g.errorChan)` — a Go runtime panic if that channel is already
closed from a previous `Wait`; the collector then delivers its accumulated
list over `finishedChan` and closes it; finally nil on an empty list, else
`errors.Join` of the list. -/
def Wait (g : SyncGroup) : WaitResult :=
  if g.listeningStarted = false then .returned none g
  else if g.wgCounter ≠ 0 then .blocked
  else if g.errorChanClosed then .panicked "close of closed channel"
  else if g.accumulated.length = 0 then
    .returned none { g with errorChanClosed := true, finishedChanClosed := true }
  else
    .returned (errorsJoin (g.accumulated.map some))
      { g with errorChanClosed := true, finishedChanClosed := true }

/-- `Reached g k`: group state `g` is reachable from `New` by caller API
calls and goroutine steps, with exactly `k` tasks ever submitted (a `Go`
call or a `TryGo` call that returned `true`). -/
inductive Reached : SyncGroup → Nat → Prop where
  | new : Reached New 0
  | setLimit {g g' : SyncGroup} {k : Nat} {n : Int} :
      Reached g k → SetLimit g n = .ok g' → Reached g' k
  | go {g : SyncGroup} {k : Nat} {t : TaskOutcome} :
      Reached g k → Reached (Go g t) (k + 1)
  | tryGoTrue {g g' : SyncGroup} {k : Nat} {t : TaskOutcome} :
      Reached g k → TryGo g t = (true, g') → Reached g' (k + 1)
  | tryGoFalse {g g' : SyncGroup} {k : Nat} {t : TaskOutcome} :
      Reached g k → TryGo g t = (false, g') → Reached g' k
  | admitOne {g g' : SyncGroup} {k : Nat} :
      Reached g k → admitFirstPending g = some g' → Reached g' k
  | finish {g : SyncGroup} {k : Nat} {t : TaskOutcome} :
      Reached g k → Reached (doneOne g t) k
  | waitStep {g g' : SyncGroup} {k : Nat} {res : Option JoinError} :
      Reached g k → Wait g = .returned res g' → Reached g' k

/-- A concrete group state used to evaluate the theorems: the collector has
started and holds one error. -/
def gOneError : SyncGroup :=
  { New with listeningStarted := true, accumulated := [GoError.base "boom"] }

/-- A concrete group state with one running task that will fail. -/
def gOneFail : SyncGroup :=
  { New with
    listeningStarted := true
    wgCounter := 1
    running := [TaskOutcome.ret (some (GoError.base "e1"))] }

/-- A concrete group state whose admission gate (capacity 1) is at capacity:
one task is running and holds the single slot. -/
def gFullGate : SyncGroup :=
  { New with
    listeningStarted := true
    wgCounter := 1
    semaphore := some ⟨1, 1⟩
    running := [TaskOutcome.ret none] }

/-- A concrete group state right after `SetLimit(1)` on a fresh group. -/
def gLimitOne : SyncGroup := { New with semaphore := some ⟨1, 0⟩ }

/-- A concrete group state whose collector has started and has drained:
no outstanding tasks, nothing accumulated. -/
def gStartedEmpty : SyncGroup := { New with listeningStarted := true }

/-- The state `gStartedEmpty` is left in by a completed `Wait` call. -/
def gStartedClosed : SyncGroup :=
  { New with
    listeningStarted := true
    errorChanClosed := true
    finishedChanClosed := true }

/-- A concrete state with an unset collector flag but a nonzero task counter
(not reachable through the API; used to evaluate theorems whose hypotheses do
not constrain the counter). -/
def gIdleCounter : SyncGroup := { New with wgCounter := 5 }

/-! Helper lemmas. -/

theorem errorsIs_refl (e : GoError) : errorsIs e e = true := by
  cases e <;> simp [errorsIs]

theorem setLimit_ok_flag {g g' : SyncGroup} {n : Int}
    (h : SetLimit g n = .ok g') :
    g'.listeningStarted = g.listeningStarted := by
  unfold SetLimit at h
  split at h
  · exact absurd h (by simp)
  · split at h <;> (rw [Except.ok.injEq] at h; rw [← h])

theorem tryGo_true_flag {g g' : SyncGroup} {t : TaskOutcome}
    (h : TryGo g t = (true, g')) : g'.listeningStarted = true := by
  unfold TryGo at h
  split at h
  · split at h
    · rw [Prod.mk.injEq] at h
      rw [← h.2]
    · exact absurd h (by simp)
  · rw [Prod.mk.injEq] at h
    rw [← h.2]

theorem tryGo_false_eq {g g' : SyncGroup} {t : TaskOutcome}
    (h : TryGo g t = (false, g')) : g' = g := by
  unfold TryGo at h
  split at h
  · split at h
    · exact absurd h (by simp)
    · rw [Prod.mk.injEq] at h
      exact h.2.symm
  · exact absurd h (by simp)

theorem admitFirstPending_flag {g g' : SyncGroup}
    (h : admitFirstPending g = some g') :
    g'.listeningStarted = g.listeningStarted := by
  unfold admitFirstPending at h
  split at h
  · exact absurd h (by simp)
  · split at h
    · split at h
      · rw [Option.some.injEq] at h
        rw [← h]
      · exact absurd h (by simp)
    · rw [Option.some.injEq] at h
      rw [← h]

theorem doneOne_flag (g : SyncGroup) (t : TaskOutcome) :
    (doneOne g t).listeningStarted = g.listeningStarted := by
  cases h : taskReport t <;> simp [doneOne, collectorReceive, h]

theorem doneOne_closed (g : SyncGroup) (t : TaskOutcome) :
    (doneOne g t).errorChanClosed = g.errorChanClosed := by
  cases h : taskReport t <;> simp [doneOne, collectorReceive, h]

theorem doneOne_wg (g : SyncGroup) (t : TaskOutcome) :
    (doneOne g t).wgCounter = g.wgCounter - 1 := by
  cases h : taskReport t <;> simp [doneOne, collectorReceive, h]

theorem doneOne_acc (g : SyncGroup) (t : TaskOutcome) :
    (doneOne g t).accumulated = g.accumulated ++ (taskReport t).toList := by
  cases h : taskReport t <;> simp [doneOne, collectorReceive, h]

theorem wait_returned_flag {g g' : SyncGroup} {res : Option JoinError}
    (h : Wait g = .returned res g') :
    g'.listeningStarted = g.listeningStarted := by
  unfold Wait at h
  split at h
  · rw [WaitResult.returned.injEq] at h
    rw [← h.2]
  · split at h
    · exact absurd h (by simp)
    · split at h
      · exact absurd h (by simp)
      · split at h <;> (rw [WaitResult.returned.injEq] at h; rw [← h.2])

theorem reached_flag_iff {g : SyncGroup} {k : Nat} (h : Reached g k) :
    (g.listeningStarted = true ↔ 0 < k) := by
  induction h with
  | new => simp [New]
  | setLimit _ heq ih =>
      rw [setLimit_ok_flag heq]; exact ih
  | go _ ih => simp [Go]
  | tryGoTrue _ heq _ => simp [tryGo_true_flag heq]
  | tryGoFalse _ heq ih => rw [tryGo_false_eq heq]; exact ih
  | admitOne _ heq ih => rw [admitFirstPending_flag heq]; exact ih
  | finish _ ih => rw [doneOne_flag]; exact ih
  | waitStep _ heq ih => rw [wait_returned_flag heq]; exact ih

theorem foldl_doneOne_flag (ts : List TaskOutcome) (g : SyncGroup) :
    (ts.foldl doneOne g).listeningStarted = g.listeningStarted := by
  induction ts generalizing g with
  | nil => rfl
  | cons t rest ih => simp [List.foldl_cons, ih, doneOne_flag]

theorem foldl_doneOne_closed (ts : List TaskOutcome) (g : SyncGroup) :
    (ts.foldl doneOne g).errorChanClosed = g.errorChanClosed := by
  induction ts generalizing g with
  | nil => rfl
  | cons t rest ih => simp [List.foldl_cons, ih, doneOne_closed]

theorem foldl_doneOne_wg (ts : List TaskOutcome) (g : SyncGroup) :
    (ts.foldl doneOne g).wgCounter = g.wgCounter - ts.length := by
  induction ts generalizing g with
  | nil => rfl
  | cons t rest ih =>
      simp [List.foldl_cons, ih, doneOne_wg]
      omega

theorem foldl_doneOne_acc (ts : List TaskOutcome) (g : SyncGroup) :
    (ts.foldl doneOne g).accumulated =
      g.accumulated ++ ts.filterMap taskReport := by
  induction ts generalizing g with
  | nil => simp
  | cons t rest ih =>
      rw [List.foldl_cons, ih, doneOne_acc]
      cases h : taskReport t <;> simp [List.filterMap_cons, h]

theorem errorsJoin_map_some (l : List GoError) :
    errorsJoin (l.map some) = if l.isEmpty then none else some ⟨l⟩ := by
  have hl : (l.map some).filterMap id = l := by
    rw [List.filterMap_map]
    simp
  rw [errorsJoin]
  simp only [hl]

theorem tryGoAll_sem (ts : List TaskOutcome) :
    ∀ (g : SyncGroup) (cap occ : Nat), g.semaphore = some ⟨cap, occ⟩ →
      (tryGoAll g ts).1 =
        List.replicate (min ts.length (cap - occ)) true ++
          List.replicate (ts.length - (cap - occ)) false := by
  induction ts with
  | nil => intro g cap occ hsem; simp [tryGoAll]
  | cons t rest ih =>
    intro g cap occ hsem
    simp only [tryGoAll, TryGo, hsem]
    by_cases hlt : occ < cap
    · have h1 : min (rest.length + 1) (cap - occ) =
          min rest.length (cap - (occ + 1)) + 1 := by omega
      have h2 : (rest.length + 1) - (cap - occ) =
          rest.length - (cap - (occ + 1)) := by omega
      simp only [hlt, if_true, List.length_cons, h1, h2, List.replicate_succ,
        List.cons_append]
      rw [ih _ cap (occ + 1) rfl]
    · have h0 : cap - occ = 0 := by omega
      simp only [hlt, if_false, List.length_cons, h0]
      rw [ih _ cap occ hsem]
      simp [h0, List.replicate_succ]

theorem length_filterMap_eq_countP (ts : List TaskOutcome) :
    (ts.filterMap taskReport).length =
      ts.countP (fun t => (taskReport t).isSome) := by
  induction ts with
  | nil => rfl
  | cons t rest ih =>
      cases h : taskReport t <;>
        simp [List.filterMap_cons, List.countP_cons, h, ih]

/-! Claim theorems. -/

/-- C1: for every group, `Wait` returns nil exactly when the collector's
accumulated error list is empty (all submitted tasks succeeded), and
otherwise returns a non-nil aggregate holding exactly that list; an aggregate
with zero elements is never returned. (Hypotheses: all tasks have finished,
the failure channel has not already been closed by an earlier `Wait`, and a
never-started collector has an empty list.) -/
theorem wait_nil_iff_collector_empty (g : SyncGroup)
    (hwg : g.wgCounter = 0) (hopen : g.errorChanClosed = false)
    (hidle : g.listeningStarted = false → g.accumulated = []) :
    ((∃ g', Wait g = .returned none g') ↔ g.accumulated = []) ∧
    (∀ j g', Wait g = .returned (some j) g' →
      j.errs = g.accumulated ∧ j.errs ≠ []) := by
  unfold Wait
  cases hflag : g.listeningStarted with
  | false => simp [hflag, hidle hflag]
  | true =>
    by_cases hlen : g.accumulated.length = 0
    · have hacc : g.accumulated = [] := List.length_eq_zero.mp hlen
      simp [hflag, hwg, hopen, hacc]
    · have hacc : g.accumulated ≠ [] := fun h0 => hlen (by simp [h0])
      have hjoin := errorsJoin_map_some g.accumulated
      rw [if_neg (by simpa using hacc)] at hjoin
      simp [hflag, hwg, hopen, hlen, hjoin, hacc]

/-- Witness for C1 at a concrete group holding one collected error. -/
theorem wait_nil_iff_collector_empty_witness :
    ((∃ g', Wait gOneError = .returned none g') ↔
      gOneError.accumulated = []) ∧
    (∀ j g', Wait gOneError = .returned (some j) g' →
      j.errs = gOneError.accumulated ∧ j.errs ≠ []) :=
  wait_nil_iff_collector_empty _ rfl rfl (by intro h; exact absurd h (by decide))

/-- C2: a task that terminates by panic yields a failure that `errors.Is`
matches against `ErrPanicRecovered`, whose message carries the captured stack
trace as a suffix, which wraps an error payload so that `errors.Is` against
the original error also succeeds, and which renders a non-error payload to
text inside the message. -/
theorem panic_error_marked_wrapped_with_stack
    (payload : PanicPayload) (stack : String) :
    errorsIs (recoverToError payload stack) ErrPanicRecovered = true ∧
    (∃ pre, (recoverToError payload stack).message = pre ++ stack) ∧
    (∀ v, payload = .err v →
      errorsIs (recoverToError payload stack) v = true) ∧
    (∀ txt, payload = .other txt →
      ∃ pre post, (recoverToError payload stack).message = pre ++ txt ++ post) := by
  cases payload with
  | err v =>
    refine ⟨?_, ?_, ?_, ?_⟩
    · simp [recoverToError, errorsIs, ErrPanicRecovered]
    · exact ⟨_, rfl⟩
    · intro v' hv
      obtain rfl : v = v' := by injection hv
      rw [recoverToError]
      unfold errorsIs
      split
      · rfl
      · simp [errorsIs_refl]
    · intro txt htxt
      exact absurd htxt (by simp)
  | other txt0 =>
    refine ⟨?_, ?_, ?_, ?_⟩
    · simp [recoverToError, errorsIs, ErrPanicRecovered]
    · exact ⟨_, rfl⟩
    · intro v hv
      exact absurd hv (by simp)
    · intro txt htxt
      obtain rfl : txt0 = txt := by injection htxt
      refine ⟨ErrPanicRecovered.message ++ ": ", "\n" ++ stack, ?_⟩
      simp [recoverToError, GoError.message, String.append_assoc]

/-- Witness for C2 at a panic with an error payload. -/
theorem panic_error_marked_wrapped_with_stack_witness :
    errorsIs (recoverToError (.err (.base "boom")) "trace")
        ErrPanicRecovered = true ∧
    (∃ pre, (recoverToError (.err (.base "boom")) "trace").message =
      pre ++ "trace") ∧
    (∀ v, PanicPayload.err (GoError.base "boom") = .err v →
      errorsIs (recoverToError (.err (.base "boom")) "trace") v = true) ∧
    (∀ txt, PanicPayload.err (GoError.base "boom") = .other txt →
      ∃ pre post, (recoverToError (.err (.base "boom")) "trace").message =
        pre ++ txt ++ post) :=
  panic_error_marked_wrapped_with_stack (.err (.base "boom")) "trace"

/-- C3: when exactly K > 0 of the submitted tasks fail (by returned error or
by panic), the aggregate returned by `Wait` holds exactly K failure entries,
in the order the collector received the reports (the `running` list gives the
completion order, and the theorem quantifies over every such order), and each
entry is individually containable in the aggregate via `errors.Is`. -/
theorem wait_aggregate_exactly_failures_in_order
    (g : SyncGroup) (ts : List TaskOutcome) (K : Nat)
    (hstart : g.listeningStarted = true) (hopen : g.errorChanClosed = false)
    (hacc : g.accumulated = []) (hrun : g.running = ts)
    (hwg : g.wgCounter = ts.length)
    (hK : K = ts.countP (fun t => (taskReport t).isSome)) (hKpos : 0 < K) :
    ∃ g', Wait (finishAllRunning g) =
        .returned (some ⟨ts.filterMap taskReport⟩) g' ∧
      (ts.filterMap taskReport).length = K ∧
      (∀ e ∈ ts.filterMap taskReport,
        joinContains ⟨ts.filterMap taskReport⟩ e = true) := by
  have hlen : (ts.filterMap taskReport).length = K := by
    rw [length_filterMap_eq_countP]
    exact hK.symm
  have hf1 : (finishAllRunning g).listeningStarted = true := by
    rw [finishAllRunning, foldl_doneOne_flag]
    exact hstart
  have hf2 : (finishAllRunning g).errorChanClosed = false := by
    rw [finishAllRunning, foldl_doneOne_closed]
    exact hopen
  have hf3 : (finishAllRunning g).wgCounter = 0 := by
    rw [finishAllRunning, foldl_doneOne_wg, hrun]
    simp [hwg]
  have hf4 : (finishAllRunning g).accumulated = ts.filterMap taskReport := by
    rw [finishAllRunning, foldl_doneOne_acc, hrun]
    simp [hacc]
  have hlen0 : ¬(finishAllRunning g).accumulated.length = 0 := by
    rw [hf4, hlen]
    omega
  have hne : ts.filterMap taskReport ≠ [] := by
    intro h0
    rw [h0] at hlen
    simp at hlen
    omega
  have hjoin : errorsJoin ((finishAllRunning g).accumulated.map some) =
      some ⟨ts.filterMap taskReport⟩ := by
    rw [hf4, errorsJoin_map_some,
      if_neg (by simpa [List.isEmpty_iff] using hne)]
  refine ⟨{ finishAllRunning g with
    errorChanClosed := true
    finishedChanClosed := true }, ?_, hlen, ?_⟩
  · rw [Wait, if_neg (by rw [hf1]; simp), if_neg (by rw [hf3]; simp),
      if_neg (by rw [hf2]; simp), if_neg hlen0, hjoin]
  · intro e he
    rw [joinContains, List.any_eq_true]
    exact ⟨e, he, errorsIs_refl e⟩

/-- Witness for C3: one running task returning one error. -/
theorem wait_aggregate_exactly_failures_in_order_witness :
    ∃ g', Wait (finishAllRunning gOneFail) =
        .returned
          (some ⟨[TaskOutcome.ret (some (GoError.base "e1"))].filterMap taskReport⟩)
          g' ∧
      ([TaskOutcome.ret (some (GoError.base "e1"))].filterMap taskReport).length
        = 1 ∧
      (∀ e ∈ [TaskOutcome.ret (some (GoError.base "e1"))].filterMap taskReport,
        joinContains
          ⟨[TaskOutcome.ret (some (GoError.base "e1"))].filterMap taskReport⟩ e
          = true) :=
  wait_aggregate_exactly_failures_in_order gOneFail
    [TaskOutcome.ret (some (GoError.base "e1"))] 1
    rfl rfl rfl rfl rfl (by decide) (by decide)

theorem setLimit_error_iff (g : SyncGroup) (n : Int) :
    (∃ msg, SetLimit g n = .error msg) ↔ g.listeningStarted = true := by
  unfold SetLimit
  cases hfl : g.listeningStarted with
  | false =>
    simp only [hfl, Bool.false_eq_true, if_false]
    constructor
    · rintro ⟨msg, hm⟩
      split at hm <;> exact absurd hm (by simp)
    · intro h
      exact absurd h (by simp)
  | true => simp [hfl]

/-- C4: `SetLimit` panics exactly when it is called after at least one task
has been submitted (a `Go` call or a successful `TryGo`); before any
submission it never panics, a non-positive argument clears the gate
(unbounded concurrency), and a positive `n` installs a fresh gate of
capacity `n`. -/
theorem setLimit_fatal_iff_after_submission
    (g : SyncGroup) (k : Nat) (n : Int) (h : Reached g k) :
    ((∃ msg, SetLimit g n = .error msg) ↔ 0 < k) ∧
    (k = 0 →
      (n ≤ 0 → SetLimit g n = .ok { g with semaphore := none }) ∧
      (0 < n → SetLimit g n = .ok { g with semaphore := some ⟨n.toNat, 0⟩ })) := by
  have hiff := reached_flag_iff h
  refine ⟨(setLimit_error_iff g n).trans hiff, ?_⟩
  intro hk0
  have hfl : g.listeningStarted = false := by
    cases hfl : g.listeningStarted
    · rfl
    · exact absurd (hiff.mp hfl) (by omega)
  constructor
  · intro hn
    rw [SetLimit, if_neg (by rw [hfl]; simp), if_pos hn]
  · intro hn
    rw [SetLimit, if_neg (by rw [hfl]; simp), if_neg (by omega)]

/-- Witness for C4 after one submission (`Go` on a fresh group). -/
theorem setLimit_fatal_iff_after_submission_witness :
    ((∃ msg, SetLimit (Go New (.ret none)) 5 = .error msg) ↔ 0 < 1) ∧
    (1 = 0 →
      ((5 : Int) ≤ 0 →
        SetLimit (Go New (.ret none)) 5 =
          .ok { Go New (.ret none) with semaphore := none }) ∧
      (0 < (5 : Int) →
        SetLimit (Go New (.ret none)) 5 =
          .ok { Go New (.ret none) with semaphore := some ⟨(5 : Int).toNat, 0⟩ })) :=
  setLimit_fatal_iff_after_submission (Go New (.ret none)) 1 5
    (Reached.go Reached.new)

/-- C5 counterexample: at a concrete group whose gate (capacity 1) is at
capacity, the claim "a call to `Go` blocks the submitting caller until a slot
frees" is false: the caller-side `Go` completes immediately — it evaluates to
a successor state — while the gate is still at capacity and the spawned
goroutine has not been admitted (its semaphore acquisition is still
impossible). The semaphore send sits inside the spawned goroutine
(src/syncgroup.go:70-76), not in the caller. -/
theorem go_full_gate_caller_unblocked_cex :
    Go gFullGate (.ret none) =
      { gFullGate with wgCounter := 2, pending := [.ret none] } ∧
    (Go gFullGate (.ret none)).semaphore = some ⟨1, 1⟩ ∧
    admitFirstPending (Go gFullGate (.ret none)) = none := by decide

/-- C5 amended: `Go` never blocks the submitting caller and never signals
admission failure (it returns only the successor state, with the flag set,
the counter incremented and the goroutine spawned); it is the spawned
goroutine that blocks on a full gate: it cannot be admitted while the gate is
at capacity, and it can be admitted as soon as a slot is released. -/
theorem go_caller_returns_goroutine_blocks
    (g : SyncGroup) (t : TaskOutcome) (cap : Nat)
    (hcap : 0 < cap) (hsem : g.semaphore = some ⟨cap, cap⟩)
    (hpend : g.pending = []) :
    Go g t = { g with
      listeningStarted := true
      wgCounter := g.wgCounter + 1
      pending := [t] } ∧
    admitFirstPending (Go g t) = none ∧
    admitFirstPending { Go g t with
        semaphore := some (Semaphore.release ⟨cap, cap⟩) } =
      some { Go g t with
        pending := []
        running := g.running ++ [t]
        semaphore := some ⟨cap, cap⟩ } := by
  refine ⟨by simp [Go, hpend], ?_, ?_⟩
  · simp [admitFirstPending, Go, hpend, hsem]
  · have hc : cap - 1 + 1 = cap := by omega
    have hlt : cap - 1 < cap := by omega
    simp [admitFirstPending, Go, hpend, Semaphore.release, hlt, hc]

/-- Witness for the amended C5 at the concrete full-gate group. -/
theorem go_caller_returns_goroutine_blocks_witness :
    Go gFullGate (.panicked (.other "x") "st") = { gFullGate with
      listeningStarted := true
      wgCounter := gFullGate.wgCounter + 1
      pending := [.panicked (.other "x") "st"] } ∧
    admitFirstPending (Go gFullGate (.panicked (.other "x") "st")) = none ∧
    admitFirstPending { Go gFullGate (.panicked (.other "x") "st") with
        semaphore := some (Semaphore.release ⟨1, 1⟩) } =
      some { Go gFullGate (.panicked (.other "x") "st") with
        pending := []
        running := gFullGate.running ++ [.panicked (.other "x") "st"]
        semaphore := some ⟨1, 1⟩ } :=
  go_caller_returns_goroutine_blocks gFullGate (.panicked (.other "x") "st") 1
    (by decide) rfl rfl

/-- C6: after `SetLimit(L)` on a fresh group, `M > L` back-to-back `TryGo`
calls made before any task completes return `true` for exactly the first `L`
calls and `false` for the remaining `M - L`. -/
theorem tryGo_first_L_succeed_rest_fail
    (L M : Nat) (ts : List TaskOutcome) (g : SyncGroup)
    (hL : 0 < L) (hM : L < M) (hlen : ts.length = M)
    (hset : SetLimit New (L : Int) = .ok g) :
    (tryGoAll g ts).1 =
      List.replicate L true ++ List.replicate (M - L) false := by
  have hsem : g.semaphore = some ⟨L, 0⟩ := by
    unfold SetLimit at hset
    rw [if_neg (by simp [New]), if_neg (by omega)] at hset
    rw [Except.ok.injEq] at hset
    rw [← hset]
    simp
  rw [tryGoAll_sem ts g L 0 hsem, hlen]
  have h1 : min M (L - 0) = L := by omega
  have h2 : M - (L - 0) = M - L := by omega
  rw [h1, h2]

/-- Witness for C6 with `L = 1`, `M = 2`. -/
theorem tryGo_first_L_succeed_rest_fail_witness :
    (tryGoAll gLimitOne [.ret none, .ret none]).1 =
      List.replicate 1 true ++ List.replicate (2 - 1) false :=
  tryGo_first_L_succeed_rest_fail 1 2 [.ret none, .ret none] gLimitOne
    (by decide) (by decide) rfl (by rfl)

/-- C7: when the admission gate is full, `TryGo` returns `false` and leaves
the group state completely unchanged — the task is not scheduled, the
outstanding-task counter is not incremented, no gate slot is consumed, and
the collector flag is untouched (the returned state is the input state). -/
theorem tryGo_full_gate_frame
    (g : SyncGroup) (t : TaskOutcome) (s : Semaphore)
    (hsem : g.semaphore = some s) (hfull : s.capacity ≤ s.occupancy) :
    TryGo g t = (false, g) := by
  simp [TryGo, hsem, Nat.not_lt.mpr hfull]

/-- Witness for C7 at the concrete full-gate group. -/
theorem tryGo_full_gate_frame_witness :
    TryGo gFullGate (.ret none) = (false, gFullGate) :=
  tryGo_full_gate_frame gFullGate (.ret none) ⟨1, 1⟩ rfl (by decide)

/-- C8: `Wait` on a group whose collector was never started returns nil at
once with the state untouched (so no collector is started), and it does so
with no constraint on the outstanding-task counter — the short circuit comes
before `wg.Wait()`, so nothing is blocked on. -/
theorem wait_idle_returns_nil_no_collector
    (g : SyncGroup) (h : g.listeningStarted = false) :
    Wait g = .returned none g := by
  rw [Wait, if_pos h]

/-- Witness for C8 at a state with a nonzero counter, showing the result does
not wait on it. -/
theorem wait_idle_returns_nil_no_collector_witness :
    Wait gIdleCounter = .returned none gIdleCounter :=
  wait_idle_returns_nil_no_collector gIdleCounter rfl

/-- C9: on a group where at least one task was ever submitted (the one-shot
flag is set), once a first `Wait` call has returned, a second `Wait` call
panics with Go's "close of closed channel" runtime error, because it closes
the already-closed `errorChan` (src/syncgroup.go:164 has no guard). -/
theorem wait_twice_panics
    (g g' : SyncGroup) (res : Option JoinError)
    (hstart : g.listeningStarted = true)
    (hfirst : Wait g = .returned res g') :
    Wait g' = .panicked "close of closed channel" := by
  unfold Wait at hfirst
  rw [if_neg (by simp [hstart])] at hfirst
  by_cases hwg : g.wgCounter ≠ 0
  · rw [if_pos hwg] at hfirst
    exact absurd hfirst (by simp)
  · rw [if_neg hwg] at hfirst
    by_cases hcl : g.errorChanClosed
    · rw [if_pos hcl] at hfirst
      exact absurd hfirst (by simp)
    · rw [if_neg hcl] at hfirst
      have hg' : g' = { g with
          errorChanClosed := true
          finishedChanClosed := true } := by
        split at hfirst <;>
          (rw [WaitResult.returned.injEq] at hfirst; exact hfirst.2.symm)
      rw [hg', Wait, if_neg (by simp [hstart]), if_neg (by simpa using hwg),
        if_pos rfl]

/-- Witness for C9: the concrete drained group, waited on twice. -/
theorem wait_twice_panics_witness :
    Wait gStartedClosed = .panicked "close of closed channel" :=
  wait_twice_panics gStartedEmpty gStartedClosed none rfl (by decide)

/-- C10: `Wait` on a group with no submissions ever made returns the very
same state: the one-shot collector flag stays unset and every other field —
channels, gate, counter — is untouched, so any later `SetLimit`, `Go`,
`TryGo` or `Wait` behaves exactly as if this `Wait` call had never
happened. -/
theorem wait_idle_frame (g : SyncGroup) (h : Reached g 0) :
    Wait g = .returned none g := by
  have hiff := reached_flag_iff h
  have hfl : g.listeningStarted = false := by
    cases hfl : g.listeningStarted
    · rfl
    · exact absurd (hiff.mp hfl) (by omega)
  rw [Wait, if_pos hfl]

/-- Witness for C10 at the freshly constructed group. -/
theorem wait_idle_frame_witness : Wait New = .returned none New :=
  wait_idle_frame New Reached.new
